import Mathlib

/-!
Verification of the scoped query executor of the postgres-row-level-security
reference implementation (main.ts together with its escaped variant, and the
row-level-security policies of db.sql).

The embedding works at the level the code works at: the executor functions
build one SQL batch string by template interpolation; the batch is split into
statements the way the server splits a simple-query batch (at semicolons that
stand outside single-quoted literals and double-quoted identifiers); each
statement is evaluated against a small relational model of db.sql, with the
session variable app.current_user_id as explicit session state; the executor
returns the result set at a fixed position of the batch, exactly as
`results[1].rows` / `results[2].rows` do in the source.
-/

namespace Rls

/-! ### Splitting a batch into statements

A simple-query batch is one string; the server cuts it into statements at
semicolons, where a semicolon inside a single-quoted literal or a
double-quoted identifier is text, not a separator. -/

/-- Where the statement scanner stands: outside any quotes, inside a
single-quoted literal, or inside a double-quoted identifier. -/
inductive QuoteState
  | outside
  | inSingle
  | inDouble
deriving DecidableEq

/-- One character of scanning: quotes open and close literal/identifier
context. -/
def scanStep (q : QuoteState) (c : Char) : QuoteState :=
  match q with
  | .outside => if c = '\'' then .inSingle else if c = '"' then .inDouble else .outside
  | .inSingle => if c = '\'' then .outside else .inSingle
  | .inDouble => if c = '"' then .outside else .inDouble

/-- The scanner state after a whole list of characters. -/
def scanList (q : QuoteState) (l : List Char) : QuoteState :=
  l.foldl scanStep q

/-- Statement splitting: cut at every semicolon met in the `outside` state.
`acc` holds the current chunk reversed. -/
def splitAux : QuoteState → List Char → List Char → List (List Char)
  | _, acc, [] => [acc.reverse]
  | q, acc, c :: cs =>
    if q = .outside ∧ c = ';' then acc.reverse :: splitAux .outside [] cs
    else splitAux (scanStep q c) (c :: acc) cs

/-- The statements of a batch, as character lists. -/
def splitChars (l : List Char) : List (List Char) :=
  splitAux .outside [] l

/-- The statements of a batch string. -/
def splitStatements (s : String) : List (List Char) :=
  splitChars s.data

/-- `true` when scanning from state `q` meets no statement separator: no
semicolon in the `outside` state. -/
def splitFree : QuoteState → List Char → Bool
  | _, [] => true
  | q, c :: cs => if q = .outside ∧ c = ';' then false else splitFree (scanStep q c) cs

/-! ### Whitespace trimming -/

/-- SQL whitespace, as it appears around the interpolated statements. -/
def isWsChar (c : Char) : Bool :=
  c = ' ' || c = '\n' || c = '\t' || c = '\r'

/-- Leading and trailing whitespace removed. -/
def trimWs (l : List Char) : List Char :=
  ((l.dropWhile isWsChar).reverse.dropWhile isWsChar).reverse

/-! ### The escaping utility (boundary collaborator)

Modelled from the spec: the SQL-escaping utility `escapeLiteral` /
`escapeIdentifier` the executor calls is the pg client library, whose code is
not part of this repository; the spec lists it as a boundary collaborator.
`escapeLiteral` wraps in single quotes doubling every quote and backslash
(prefixing a space and `E` when a backslash occurs); `escapeIdentifier` wraps
in double quotes doubling every double quote. -/

/-- The body of an escaped literal: every single quote and backslash doubled. -/
def escLitChars : List Char → List Char
  | [] => []
  | c :: cs =>
    if c = '\'' || c = '\\' then c :: c :: escLitChars cs else c :: escLitChars cs

/-- `pg.escapeLiteral` on character lists. -/
def escapeLiteralData (l : List Char) : List Char :=
  if l.contains '\\' then
    ' ' :: 'E' :: '\'' :: (escLitChars l ++ ['\''])
  else
    '\'' :: (escLitChars l ++ ['\''])

/-- `pg.escapeLiteral`. -/
def escapeLiteral (s : String) : String :=
  String.mk (escapeLiteralData s.data)

/-- The body of an escaped identifier: every double quote doubled. -/
def escIdentChars : List Char → List Char
  | [] => []
  | c :: cs => if c = '"' then c :: c :: escIdentChars cs else c :: escIdentChars cs

/-- `pg.escapeIdentifier` on character lists. -/
def escapeIdentifierData (l : List Char) : List Char :=
  '"' :: (escIdentChars l ++ ['"'])

/-- `pg.escapeIdentifier`. -/
def escapeIdentifier (s : String) : String :=
  String.mk (escapeIdentifierData s.data)

/-! ### The data model and the row-level-security policies of db.sql -/

/-- The database of db.sql: tables `users`, `items` (each a list of text ids)
and `item_users` (pairs of item id and user id). -/
structure DB where
  users : List String
  items : List String
  itemUsers : List (String × String)
deriving DecidableEq

/-- The example data inserted by db.sql. -/
def seededDB : DB :=
  { users := ["1", "2"]
    items := ["1", "2", "3", "4"]
    itemUsers := [("1", "1"), ("2", "2"), ("3", "1"), ("3", "2")] }

/-- db.sql `select_policy ON users`: `id = current_setting('app.current_user_id')`. -/
def usersSelectPolicy (currentUserId id : String) : Bool :=
  id = currentUserId

/-- db.sql `select_policy ON item_users`:
`user_id = current_setting('app.current_user_id')`. -/
def itemUsersSelectPolicy (currentUserId : String) (row : String × String) : Bool :=
  row.2 = currentUserId

/-- db.sql `select_policy ON items`: there is an `item_users` row linking the
item to `current_setting('app.current_user_id')`. -/
def itemsSelectPolicy (db : DB) (currentUserId id : String) : Bool :=
  db.itemUsers.any fun row => row.1 = id && row.2 = currentUserId

/-! ### Statement evaluation

The session state is the per-connection variable `app.current_user_id`. The
evaluator covers the statement forms the executor functions build and run:
`SET SESSION app.current_user_id to <literal>` and `SELECT * FROM items`
(the latter under the row-level-security policy of db.sql, for the `querier`
role the reference implementation connects as). Any other text is a database
error carrying the statement, as a simple-query batch fails as a whole. -/

/-- Per-connection session state: the value of `app.current_user_id`, unset
on a fresh connection. -/
abbrev Session := Option String

/-- Undo literal quoting: the body of a quoted literal up to its closing
quote, with doubled quotes and backslash escapes folded; `none` when the
literal is unterminated or followed by trailing text. -/
def unqAux : List Char → Option (List Char)
  | [] => none
  | c :: rest =>
    if c = '\'' then
      match rest with
      | [] => some []
      | d :: rest2 =>
        if d = '\'' then (unqAux rest2).map (fun l => '\'' :: l) else none
    else if c = '\\' then
      match rest with
      | [] => none
      | d :: rest2 => (unqAux rest2).map (fun l => d :: l)
    else
      (unqAux rest).map (fun l => c :: l)

/-- The string value of a quoted SQL literal (plain or ` E`-prefixed),
`none` when the text is not one literal. -/
def unquoteLiteral : List Char → Option (List Char)
  | '\'' :: rest => unqAux rest
  | ' ' :: 'E' :: '\'' :: rest => unqAux rest
  | _ => none

/-- The text of the session-variable statement, up to its literal. -/
def setHeader : List Char :=
  ("SET SESSION app.current_user_id to ").data

/-- The text of the supported select statement. -/
def selectItemsStmt : List Char :=
  ("SELECT * FROM items").data

/-- Evaluate one already-trimmed statement: the new session state and the
statement's result rows (a list of item ids), or a database error. -/
def evalCore (db : DB) (session : Session) (stmt : List Char) :
    Except String (Session × List String) :=
  if setHeader.isPrefixOf stmt then
    match unquoteLiteral (stmt.drop setHeader.length) with
    | some uid => .ok (some (String.mk uid), [])
    | none => .error (String.mk stmt)
  else if stmt = selectItemsStmt then
    match session with
    | none => .error "unrecognized configuration parameter"
    | some uid => .ok (session, db.items.filter fun i => itemsSelectPolicy db uid i)
  else
    .error (String.mk stmt)

/-- Evaluate one raw statement of a batch (whitespace around it ignored). -/
def evalStmt (db : DB) (session : Session) (stmt : List Char) :
    Except String (Session × List String) :=
  evalCore db session (trimWs stmt)

/-- Run the statements of a batch in order on one connection: the final
session state and one result set per statement; the first database error
fails the whole batch. -/
def runBatch (db : DB) (session : Session) :
    List (List Char) → Except String (Session × List (List String))
  | [] => .ok (session, [])
  | stmt :: rest =>
    match evalStmt db session stmt with
    | .error e => .error e
    | .ok (s1, rows) =>
      match runBatch db s1 rest with
      | .error e => .error e
      | .ok (s2, results) => .ok (s2, rows :: results)

end Rls

namespace MainTs

open Rls

/-! ### The executor functions of main.ts

main.ts interpolates the scope identifiers into the batch raw, inside
hand-written quotes. -/

/-- The batch `queryAsUser` of main.ts sends:
a newline-and-indent template with the user id interpolated unescaped inside
single quotes, a semicolon, then the caller's statement. -/
def queryAsUserBatch (userId queryStr : String) : String :=
  "\n    SET SESSION app.current_user_id to '" ++ userId ++ "';\n    " ++
    queryStr ++ "\n  "

/-- The batch `queryAsTenant` of main.ts sends: the search-path statement
(no trailing semicolon in the source), then the caller's statement. -/
def queryAsTenantBatch (tenantId queryStr : String) : String :=
  "\n    SET search_path TO 'tenant_" ++ tenantId ++ "', 'public'\n    " ++
    queryStr ++ "\n  "

/-- The batch `queryAsTenantAndUser` of main.ts sends: the search-path
statement (no trailing semicolon in the source), the session-variable
statement, then the caller's statement. -/
def queryAsTenantAndUserBatch (tenantId userId queryStr : String) : String :=
  "\n    SET search_path TO 'tenant_" ++ tenantId ++ "', 'public'\n    " ++
    "SET SESSION app.current_user_id to '" ++ userId ++ "';\n    " ++
    queryStr ++ "\n  "

/-- `queryAsUser` of main.ts: run the batch on a pooled connection (session
state `s`), return `results[1].rows`; `results[1]` missing is a thrown
`TypeError`. -/
def queryAsUser (db : DB) (s : Session) (userId queryStr : String) :
    Except String (List String) :=
  match runBatch db s (splitStatements (queryAsUserBatch userId queryStr)) with
  | .error e => .error e
  | .ok (_, results) =>
    match results.get? 1 with
    | some rows => .ok rows
    | none => .error "TypeError"

/-- `queryAsTenant` of main.ts: run the batch, return `results[1].rows`. -/
def queryAsTenant (db : DB) (s : Session) (tenantId queryStr : String) :
    Except String (List String) :=
  match runBatch db s (splitStatements (queryAsTenantBatch tenantId queryStr)) with
  | .error e => .error e
  | .ok (_, results) =>
    match results.get? 1 with
    | some rows => .ok rows
    | none => .error "TypeError"

end MainTs

namespace Part000

open Rls

/-! ### The executor functions of the escaped variant (src/unnamed/part_000)

This file escapes the user id with `pg.escapeLiteral` and the tenant schema
with `pg.escapeIdentifier`, and adds `queryAsUser2`, which leases a dedicated
connection and runs the preamble and the caller's statement as two separate
queries inside try/finally. -/

/-- The batch `queryAsUser` of part_000 sends: the session-variable
statement with the user id escaped as a literal, a semicolon, then the
caller's statement. -/
def queryAsUserBatch (userId queryStr : String) : String :=
  "\n    SET SESSION app.current_user_id to " ++ escapeLiteral userId ++
    ";\n    " ++ queryStr ++ "\n  "

/-- The batch `queryAsTenant` of part_000 sends (no trailing semicolon after
the search-path statement in the source). -/
def queryAsTenantBatch (tenantId queryStr : String) : String :=
  "\n    SET search_path TO " ++ escapeIdentifier ("tenant_" ++ tenantId) ++
    ", 'public'\n    " ++ queryStr ++ "\n  "

/-- The batch `queryAsTenantAndUser` of part_000 sends (no trailing
semicolon after the search-path statement in the source). -/
def queryAsTenantAndUserBatch (tenantId userId queryStr : String) : String :=
  "\n    SET search_path TO " ++ escapeIdentifier ("tenant_" ++ tenantId) ++
    ", 'public'\n    SET SESSION app.current_user_id to " ++
    escapeLiteral userId ++ ";\n    " ++ queryStr ++ "\n  "

/-- `queryAsUser` of part_000: run the batch on a pooled connection (session
state `s`), return `results[1].rows`. -/
def queryAsUser (db : DB) (s : Session) (userId queryStr : String) :
    Except String (List String) :=
  match runBatch db s (splitStatements (queryAsUserBatch userId queryStr)) with
  | .error e => .error e
  | .ok (_, results) =>
    match results.get? 1 with
    | some rows => .ok rows
    | none => .error "TypeError"

/-- `queryAsUser2` of part_000: on a dedicated connection (session state
`s`), run the session-variable statement and then the caller's statement as
two separate queries; return the second result's rows; errors propagate. -/
def queryAsUser2 (db : DB) (s : Session) (userId queryStr : String) :
    Except String (List String) :=
  match evalStmt db s
      (("SET SESSION app.current_user_id to " ++ escapeLiteral userId).data) with
  | .error e => .error e
  | .ok (s1, _) =>
    match evalStmt db s1 queryStr.data with
    | .error e => .error e
    | .ok (_, rows) => .ok rows

end Part000

namespace Rls

/-! ### Lemmas about scanning and statement splitting -/

theorem scanList_nil (q : QuoteState) : scanList q [] = q := rfl

theorem scanList_cons (q : QuoteState) (c : Char) (l : List Char) :
    scanList q (c :: l) = scanList (scanStep q c) l := rfl

theorem scanList_append (q : QuoteState) (a b : List Char) :
    scanList q (a ++ b) = scanList (scanList q a) b := by
  simp [scanList, List.foldl_append]

theorem splitFree_append (q : QuoteState) (a b : List Char) :
    splitFree q (a ++ b) = (splitFree q a && splitFree (scanList q a) b) := by
  induction a generalizing q with
  | nil => simp [splitFree, scanList]
  | cons c t ih =>
    by_cases hc : q = .outside ∧ c = ';'
    · simp [splitFree, hc]
    · simp only [List.cons_append, splitFree, if_neg hc, scanList_cons]
      exact ih (scanStep q c)

theorem splitFree_of_no_semi (q : QuoteState) (l : List Char)
    (h : ∀ c ∈ l, c ≠ ';') : splitFree q l = true := by
  induction l generalizing q with
  | nil => rfl
  | cons c t ih =>
    have hc : c ≠ ';' := h c (List.mem_cons_self c t)
    have : ¬(q = .outside ∧ c = ';') := fun hp => hc hp.2
    simp only [splitFree, if_neg this]
    exact ih (scanStep q c) fun d hd => h d (List.mem_cons_of_mem c hd)

theorem splitAux_append (q : QuoteState) (acc a rest : List Char)
    (h : splitFree q a = true) :
    splitAux q acc (a ++ rest) = splitAux (scanList q a) (a.reverse ++ acc) rest := by
  induction a generalizing q acc with
  | nil => simp [scanList]
  | cons c t ih =>
    by_cases hc : q = .outside ∧ c = ';'
    · rw [splitFree, if_pos hc] at h
      exact absurd h (by simp)
    · rw [splitFree, if_neg hc] at h
      rw [List.cons_append, splitAux, if_neg hc, ih (scanStep q c) (c :: acc) h]
      simp [scanList_cons]

theorem splitAux_semi (acc rest : List Char) :
    splitAux .outside acc (';' :: rest) = acc.reverse :: splitAux .outside [] rest := by
  simp [splitAux]

theorem splitAux_single (q : QuoteState) (acc a : List Char)
    (h : splitFree q a = true) :
    splitAux q acc a = [acc.reverse ++ a] := by
  induction a generalizing q acc with
  | nil => simp [splitAux]
  | cons c t ih =>
    by_cases hc : q = .outside ∧ c = ';'
    · rw [splitFree, if_pos hc] at h
      exact absurd h (by simp)
    · rw [splitFree, if_neg hc] at h
      rw [splitAux, if_neg hc, ih (scanStep q c) (c :: acc) h]
      simp

/-! ### Lemmas about whitespace trimming -/

theorem dropWhile_ws_append (w l : List Char) (hw : ∀ c ∈ w, isWsChar c = true) :
    (w ++ l).dropWhile isWsChar = l.dropWhile isWsChar := by
  induction w with
  | nil => rfl
  | cons c t ih =>
    rw [List.cons_append, List.dropWhile_cons,
      if_pos (hw c (List.mem_cons_self c t))]
    exact ih fun d hd => hw d (List.mem_cons_of_mem c hd)

theorem trimWs_ws_append (w l : List Char) (hw : ∀ c ∈ w, isWsChar c = true) :
    trimWs (w ++ l) = trimWs l := by
  unfold trimWs
  rw [dropWhile_ws_append w l hw]

theorem trimWs_wrap (w1 w2 l : List Char)
    (h1 : ∀ c ∈ w1, isWsChar c = true) (h2 : ∀ c ∈ w2, isWsChar c = true) :
    trimWs (w1 ++ l ++ w2) = trimWs l := by
  rw [List.append_assoc, trimWs_ws_append w1 (l ++ w2) h1]
  unfold trimWs
  rw [List.dropWhile_append]
  by_cases hl : (l.dropWhile isWsChar).isEmpty
  · rw [if_pos hl]
    have hw2 : w2.dropWhile isWsChar = [] := List.dropWhile_eq_nil_iff.mpr h2
    have hln : l.dropWhile isWsChar = [] := by
      cases hdw : l.dropWhile isWsChar with
      | nil => rfl
      | cons a b => rw [hdw] at hl; simp [List.isEmpty] at hl
    rw [hw2, hln]
  · rw [if_neg hl]
    rw [List.reverse_append,
      dropWhile_ws_append w2.reverse _ (fun c hc => h2 c (List.mem_reverse.mp hc))]

theorem trimWs_of_nonWs_ends (c d : Char) (m : List Char)
    (hc : isWsChar c = false) (hd : isWsChar d = false) :
    trimWs ((c :: m) ++ [d]) = (c :: m) ++ [d] := by
  unfold trimWs
  have h1 : List.dropWhile isWsChar ((c :: m) ++ [d]) = (c :: m) ++ [d] := by
    rw [List.cons_append, List.dropWhile_cons, if_neg (by simp [hc])]
  have h2 : ((c :: m) ++ [d]).reverse = d :: (m.reverse ++ [c]) := by simp
  rw [h1, h2, List.dropWhile_cons, if_neg (by simp [hd]), ← h2, List.reverse_reverse]

/-! ### Lemmas about the escaping utility -/

theorem escLitChars_scan (l : List Char) :
    splitFree .inSingle (escLitChars l) = true ∧
      scanList .inSingle (escLitChars l) = .inSingle := by
  induction l with
  | nil => exact ⟨rfl, rfl⟩
  | cons c t ih =>
    by_cases hq : c = '\''
    · subst hq
      simpa [escLitChars, splitFree, scanList_cons, scanStep] using ih
    · by_cases hb : c = '\\'
      · subst hb
        simpa [escLitChars, splitFree, scanList_cons, scanStep] using ih
      · simpa [escLitChars, hq, hb, splitFree, scanList_cons, scanStep] using ih

theorem escapeLiteralData_scan (l : List Char) :
    splitFree .outside (escapeLiteralData l) = true ∧
      scanList .outside (escapeLiteralData l) = .outside := by
  have core : ∀ st, st = QuoteState.inSingle →
      splitFree st (escLitChars l ++ ['\'']) = true ∧
        scanList st (escLitChars l ++ ['\'']) = .outside := by
    rintro _ rfl
    constructor
    · rw [splitFree_append, (escLitChars_scan l).1, (escLitChars_scan l).2]
      rfl
    · rw [scanList_append, (escLitChars_scan l).2]
      rfl
  unfold escapeLiteralData
  split
  · refine ⟨?_, ?_⟩
    · simpa [splitFree, scanStep] using (core _ rfl).1
    · simpa [scanList_cons, scanStep] using (core _ rfl).2
  · refine ⟨?_, ?_⟩
    · simpa [splitFree, scanStep] using (core _ rfl).1
    · simpa [scanList_cons, scanStep] using (core _ rfl).2

theorem escapeLiteralData_ends (l : List Char) :
    ∃ b, escapeLiteralData l = b ++ ['\''] := by
  unfold escapeLiteralData
  split
  · exact ⟨' ' :: 'E' :: '\'' :: escLitChars l, by simp⟩
  · exact ⟨'\'' :: escLitChars l, by simp⟩

theorem unqAux_escLit (l : List Char) : unqAux (escLitChars l ++ ['\'']) = some l := by
  induction l with
  | nil => rfl
  | cons c t ih =>
    by_cases hq : c = '\''
    · subst hq
      simp [escLitChars, unqAux, ih]
    · by_cases hb : c = '\\'
      · subst hb
        simp [escLitChars, unqAux, ih]
      · rw [escLitChars, if_neg (by simp [hq, hb]), List.cons_append]
        have hstep : unqAux (c :: (escLitChars t ++ ['\''])) =
            (unqAux (escLitChars t ++ ['\''])).map (fun l => c :: l) := by
          conv_lhs => rw [unqAux.eq_def]
          simp only [if_neg hq, if_neg hb]
        rw [hstep, ih]
        rfl

theorem unquoteLiteral_escape (l : List Char) :
    unquoteLiteral (escapeLiteralData l) = some l := by
  unfold escapeLiteralData
  by_cases h : l.contains '\\'
  · rw [if_pos h]
    show unquoteLiteral (' ' :: 'E' :: '\'' :: (escLitChars l ++ ['\''])) = some l
    rw [unquoteLiteral]
    exact unqAux_escLit l
  · rw [if_neg h]
    show unquoteLiteral ('\'' :: (escLitChars l ++ ['\''])) = some l
    rw [unquoteLiteral]
    exact unqAux_escLit l

theorem isPrefixOf_append_self (h r : List Char) : List.isPrefixOf h (h ++ r) = true := by
  induction h with
  | nil => simp [List.isPrefixOf]
  | cons c t ih => simp [List.isPrefixOf, ih]

theorem string_mk_data (s : String) : String.mk s.data = s := by
  cases s
  rfl

theorem escapeLiteral_data (s : String) :
    (escapeLiteral s).data = escapeLiteralData s.data := rfl

/-! ### The first statement of the escaped `queryAsUser` batch -/

/-- The whitespace the template puts before each interpolated statement. -/
def wsOpen : List Char := ("\n    ").data

/-- The whitespace the template puts after the caller's statement. -/
def wsClose : List Char := ("\n  ").data

theorem trimWs_setHeader_escape (l : List Char) :
    trimWs (setHeader ++ escapeLiteralData l) = setHeader ++ escapeLiteralData l := by
  obtain ⟨b, hb⟩ := escapeLiteralData_ends l
  rw [hb]
  have hshape : setHeader ++ (b ++ ['\'']) = ('S' :: (setHeader.tail ++ b)) ++ ['\''] := by
    rw [show setHeader = 'S' :: setHeader.tail from rfl]
    simp
  rw [hshape, trimWs_of_nonWs_ends 'S' '\'' _ (by decide) (by decide)]

theorem evalCore_set (db : DB) (s : Session) (u : String) :
    evalCore db s (setHeader ++ escapeLiteralData u.data) = .ok (some u, []) := by
  unfold evalCore
  rw [if_pos (isPrefixOf_append_self setHeader _), List.drop_left,
    unquoteLiteral_escape, string_mk_data]

theorem evalStmt_set (db : DB) (s : Session) (u : String) :
    evalStmt db s (setHeader ++ escapeLiteralData u.data) = .ok (some u, []) := by
  unfold evalStmt
  rw [trimWs_setHeader_escape, evalCore_set]

theorem evalStmt_set_chunk (db : DB) (s : Session) (u : String) :
    evalStmt db s ((wsOpen ++ setHeader) ++ escapeLiteralData u.data) =
      .ok (some u, []) := by
  unfold evalStmt
  rw [List.append_assoc, trimWs_ws_append wsOpen _ (by decide),
    trimWs_setHeader_escape, evalCore_set]

/-- The escaped `queryAsUser` batch always splits into the session-variable
statement followed by the statements of the caller's text: the escaped
literal cannot move a statement boundary. -/
theorem part000_batch_split (u q : String) :
    splitStatements (Part000.queryAsUserBatch u q) =
      ((wsOpen ++ setHeader) ++ escapeLiteralData u.data) ::
        splitChars (wsOpen ++ q.data ++ wsClose) := by
  unfold splitStatements Part000.queryAsUserBatch
  have hdata : ("\n    SET SESSION app.current_user_id to " ++ escapeLiteral u ++
        ";\n    " ++ q ++ "\n  ").data =
      ((wsOpen ++ setHeader) ++ escapeLiteralData u.data) ++
        ';' :: (wsOpen ++ q.data ++ wsClose) := by
    simp [String.data_append, escapeLiteral_data, wsOpen, setHeader, wsClose,
      List.append_assoc]
  rw [hdata]
  unfold splitChars
  have h1 : splitFree .outside (wsOpen ++ setHeader) = true := by decide
  have h2 : scanList .outside (wsOpen ++ setHeader) = .outside := by decide
  have hfree : splitFree .outside ((wsOpen ++ setHeader) ++ escapeLiteralData u.data) =
      true := by
    rw [splitFree_append, h1, h2, (escapeLiteralData_scan u.data).1]
    rfl
  have hscan : scanList .outside ((wsOpen ++ setHeader) ++ escapeLiteralData u.data) =
      .outside := by
    rw [scanList_append, h2, (escapeLiteralData_scan u.data).2]
  rw [splitAux_append .outside [] _ _ hfree, hscan, List.append_nil, splitAux_semi,
    List.reverse_reverse]

/-! ### Inversion lemmas for the executor pipeline -/

theorem runBatch_ok_cons (db : DB) (s sf : Session) (stmt : List Char)
    (rest : List (List Char)) (results : List (List String))
    (h : runBatch db s (stmt :: rest) = .ok (sf, results)) :
    ∃ s1 rows res1, evalStmt db s stmt = .ok (s1, rows) ∧
      runBatch db s1 rest = .ok (sf, res1) ∧ results = rows :: res1 := by
  unfold runBatch at h
  cases h1 : evalStmt db s stmt with
  | error e =>
    simp only [h1] at h
    exact absurd h (by simp)
  | ok p =>
    obtain ⟨s1, rows⟩ := p
    simp only [h1] at h
    cases h2 : runBatch db s1 rest with
    | error e =>
      simp only [h2] at h
      exact absurd h (by simp)
    | ok p2 =>
      obtain ⟨s2, res1⟩ := p2
      simp only [h2, Except.ok.injEq, Prod.mk.injEq] at h
      exact ⟨s1, rows, res1, rfl, by rw [h2, h.1], h.2.symm⟩

theorem evalStmt_ok_cases (db : DB) (s s1 : Session) (stmt : List Char)
    (rows : List String) (h : evalStmt db s stmt = .ok (s1, rows)) :
    rows = [] ∨
      ∃ u, s = some u ∧ rows = db.items.filter fun i => itemsSelectPolicy db u i := by
  unfold evalStmt evalCore at h
  split at h
  · split at h
    · simp only [Except.ok.injEq, Prod.mk.injEq] at h
      exact Or.inl h.2.symm
    · exact absurd h (by simp)
  · split at h
    · split at h
      · exact absurd h (by simp)
      · simp only [Except.ok.injEq, Prod.mk.injEq] at h
        exact Or.inr ⟨_, rfl, h.2.symm⟩
    · exact absurd h (by simp)

theorem part000_queryAsUser_ok_inv (db : DB) (s : Session) (u q : String)
    (rows : List String) (h : Part000.queryAsUser db s u q = .ok rows) :
    ∃ sf results,
      runBatch db s (splitStatements (Part000.queryAsUserBatch u q)) =
        .ok (sf, results) ∧ results.get? 1 = some rows := by
  unfold Part000.queryAsUser at h
  cases hb : runBatch db s (splitStatements (Part000.queryAsUserBatch u q)) with
  | error e =>
    simp only [hb] at h
    exact absurd h (by simp)
  | ok p =>
    obtain ⟨sf, results⟩ := p
    simp only [hb] at h
    cases hg : results.get? 1 with
    | none =>
      simp only [hg] at h
      exact absurd h (by simp)
    | some r =>
      simp only [hg, Except.ok.injEq] at h
      exact ⟨sf, results, rfl, by rw [hg, h]⟩

/-- Scope isolation of the escaped `queryAsUser`: whatever the caller's text,
every row the operation returns is permitted by the items select policy for
the user id of the scope. -/
theorem part000_queryAsUser_policy (db : DB) (s : Session) (u q : String)
    (rows : List String) (h : Part000.queryAsUser db s u q = .ok rows) :
    ∀ r ∈ rows, itemsSelectPolicy db u r = true := by
  obtain ⟨sf, results, hb, hget⟩ := part000_queryAsUser_ok_inv db s u q rows h
  rw [part000_batch_split] at hb
  obtain ⟨sA, rowsA, resA, hA, hrest, hres⟩ := runBatch_ok_cons _ _ _ _ _ _ hb
  rw [evalStmt_set_chunk] at hA
  simp only [Except.ok.injEq, Prod.mk.injEq] at hA
  subst hres
  rw [← hA.2] at hget
  cases resA with
  | nil => exact absurd hget (by simp)
  | cons r0 rtl =>
    simp only [List.get?] at hget
    have hrows : r0 = rows := by simpa using hget
    cases hT : splitChars (wsOpen ++ q.data ++ wsClose) with
    | nil =>
      rw [hT] at hrest
      unfold runBatch at hrest
      exact absurd hrest (by simp)
    | cons t0 ttl =>
      rw [hT] at hrest
      obtain ⟨s1, rows1, res2, h1, _, hres2⟩ := runBatch_ok_cons _ _ _ _ _ _ hrest
      have : rows1 = r0 := (List.cons.injEq _ _ _ _ ▸ hres2).1.symm
      rw [← hA.1] at h1
      rcases evalStmt_ok_cases _ _ _ _ _ h1 with hnil | ⟨u2, hu2, hfil⟩
      · intro r hr
        rw [← hrows, ← this, hnil] at hr
        exact absurd hr (by simp)
      · intro r hr
        have hu : u2 = u := by
          have := hu2.symm.trans rfl
          simp only [Option.some.injEq] at hu2
          exact hu2.symm
        rw [← hrows, ← this, hfil, hu] at hr
        exact (List.mem_filter.mp hr).2

/-! ### Equivalence of the batched and the sequential `queryAsUser` -/

theorem part000_tail_single (q : String) (hfree : splitFree .outside q.data = true) :
    splitChars (wsOpen ++ q.data ++ wsClose) = [wsOpen ++ q.data ++ wsClose] := by
  apply splitAux_single
  rw [splitFree_append, splitFree_append,
    show splitFree QuoteState.outside wsOpen = true from by decide,
    show scanList QuoteState.outside wsOpen = QuoteState.outside from by decide,
    hfree, splitFree_of_no_semi _ wsClose (by decide)]
  rfl

theorem evalStmt_tail (db : DB) (σ : Session) (q : String) :
    evalStmt db σ (wsOpen ++ q.data ++ wsClose) = evalStmt db σ q.data := by
  unfold evalStmt
  rw [trimWs_wrap wsOpen wsClose _ (by decide) (by decide)]

theorem seq_set_data (u : String) :
    ("SET SESSION app.current_user_id to " ++ escapeLiteral u).data =
      setHeader ++ escapeLiteralData u.data := by
  simp [String.data_append, escapeLiteral_data, setHeader]

end Rls

namespace Concurrent

/-! ### Concurrent operations on a shared pool

Two logical operations run concurrently over the shared pool. Each holds its
own leased connection for the whole operation (the pool leases exclusively:
while one operation's connection is checked out the other cannot receive
it). Each operation is two steps on its connection: the preamble sets the
session context, then the caller's statement reads it
(`SELECT current_setting`). A schedule interleaves the steps arbitrarily. -/

/-- The session context on every pooled connection: connection number ↦
context value (`none` when never set). -/
abbrev Sessions := Nat → Option String

/-- One logical operation: the scope its preamble sets, and the connection
the pool leased to it. -/
structure Op where
  scope : String
  conn : Nat

/-- Write one connection's session context. -/
def setVar (σ : Sessions) (n : Nat) (v : String) : Sessions :=
  fun m => if m = n then some v else σ m

/-- The interleaved execution's state: all session contexts, how many steps
of each operation have run, and the value each operation's caller statement
observed (once it ran). -/
structure RunState where
  σ : Sessions
  doneA : Nat
  doneB : Nat
  resA : Option (Option String)
  resB : Option (Option String)

/-- One step of operation A on its own connection: first the preamble write,
then the read of the caller's statement. -/
def stepA (opA : Op) (st : RunState) : RunState :=
  if st.doneA = 0 then
    { st with σ := setVar st.σ opA.conn opA.scope, doneA := 1 }
  else if st.doneA = 1 then
    { st with doneA := 2, resA := some (st.σ opA.conn) }
  else st

/-- One step of operation B on its own connection. -/
def stepB (opB : Op) (st : RunState) : RunState :=
  if st.doneB = 0 then
    { st with σ := setVar st.σ opB.conn opB.scope, doneB := 1 }
  else if st.doneB = 1 then
    { st with doneB := 2, resB := some (st.σ opB.conn) }
  else st

/-- Run an interleaving: `false` schedules the next step of A, `true` the
next step of B. -/
def run (opA opB : Op) : List Bool → RunState → RunState
  | [], st => st
  | b :: rest, st => run opA opB rest (if b then stepB opB st else stepA opA st)

/-- The state before anything ran: arbitrary leftover session contexts on
the pool's connections, no step taken. -/
def initState (σ0 : Sessions) : RunState :=
  ⟨σ0, 0, 0, none, none⟩

/-- Operation A's progress invariant: before its preamble nothing is
recorded; between preamble and read its own connection holds its own scope;
after the read it has observed exactly its own scope. -/
def invA (opA : Op) (st : RunState) : Prop :=
  (st.doneA = 0 ∧ st.resA = none) ∨
    (st.doneA = 1 ∧ st.σ opA.conn = some opA.scope ∧ st.resA = none) ∨
    (2 ≤ st.doneA ∧ st.resA = some (some opA.scope))

/-- Operation B's progress invariant. -/
def invB (opB : Op) (st : RunState) : Prop :=
  (st.doneB = 0 ∧ st.resB = none) ∨
    (st.doneB = 1 ∧ st.σ opB.conn = some opB.scope ∧ st.resB = none) ∨
    (2 ≤ st.doneB ∧ st.resB = some (some opB.scope))

theorem stepA_invA (opA : Op) (st : RunState) (h : invA opA st) :
    invA opA (stepA opA st) := by
  unfold invA stepA at *
  rcases h with ⟨h0, hr⟩ | ⟨h1, hσ, hr⟩ | ⟨h2, hr⟩
  · rw [if_pos h0]
    exact Or.inr (Or.inl ⟨rfl, by simp [setVar], hr⟩)
  · rw [if_neg (by omega), if_pos h1]
    exact Or.inr (Or.inr ⟨by simp, by simp [hσ]⟩)
  · rw [if_neg (by omega), if_neg (by omega)]
    exact Or.inr (Or.inr ⟨h2, hr⟩)

theorem stepB_invB (opB : Op) (st : RunState) (h : invB opB st) :
    invB opB (stepB opB st) := by
  unfold invB stepB at *
  rcases h with ⟨h0, hr⟩ | ⟨h1, hσ, hr⟩ | ⟨h2, hr⟩
  · rw [if_pos h0]
    exact Or.inr (Or.inl ⟨rfl, by simp [setVar], hr⟩)
  · rw [if_neg (by omega), if_pos h1]
    exact Or.inr (Or.inr ⟨by simp, by simp [hσ]⟩)
  · rw [if_neg (by omega), if_neg (by omega)]
    exact Or.inr (Or.inr ⟨h2, hr⟩)

theorem stepB_invA (opA opB : Op) (hconn : opA.conn ≠ opB.conn) (st : RunState)
    (h : invA opA st) : invA opA (stepB opB st) := by
  unfold invA stepB at *
  by_cases h0 : st.doneB = 0
  · rw [if_pos h0]
    rcases h with ⟨ha, hr⟩ | ⟨ha, hσ, hr⟩ | ⟨ha, hr⟩
    · exact Or.inl ⟨ha, hr⟩
    · exact Or.inr (Or.inl ⟨ha, by simp [setVar, if_neg hconn, hσ], hr⟩)
    · exact Or.inr (Or.inr ⟨ha, hr⟩)
  · rw [if_neg h0]
    by_cases h1 : st.doneB = 1
    · rw [if_pos h1]
      rcases h with ⟨ha, hr⟩ | ⟨ha, hσ, hr⟩ | ⟨ha, hr⟩
      · exact Or.inl ⟨ha, hr⟩
      · exact Or.inr (Or.inl ⟨ha, hσ, hr⟩)
      · exact Or.inr (Or.inr ⟨ha, hr⟩)
    · rw [if_neg h1]
      exact h

theorem stepA_invB (opA opB : Op) (hconn : opA.conn ≠ opB.conn) (st : RunState)
    (h : invB opB st) : invB opB (stepA opA st) := by
  unfold invB stepA at *
  by_cases h0 : st.doneA = 0
  · rw [if_pos h0]
    rcases h with ⟨ha, hr⟩ | ⟨ha, hσ, hr⟩ | ⟨ha, hr⟩
    · exact Or.inl ⟨ha, hr⟩
    · refine Or.inr (Or.inl ⟨ha, ?_, hr⟩)
      simp only [setVar]
      rw [if_neg (fun he => hconn he.symm)]
      exact hσ
    · exact Or.inr (Or.inr ⟨ha, hr⟩)
  · rw [if_neg h0]
    by_cases h1 : st.doneA = 1
    · rw [if_pos h1]
      rcases h with ⟨ha, hr⟩ | ⟨ha, hσ, hr⟩ | ⟨ha, hr⟩
      · exact Or.inl ⟨ha, hr⟩
      · exact Or.inr (Or.inl ⟨ha, hσ, hr⟩)
      · exact Or.inr (Or.inr ⟨ha, hr⟩)
    · rw [if_neg h1]
      exact h

theorem run_invariants (opA opB : Op) (hconn : opA.conn ≠ opB.conn)
    (sched : List Bool) (st : RunState) (hA : invA opA st) (hB : invB opB st) :
    invA opA (run opA opB sched st) ∧ invB opB (run opA opB sched st) := by
  induction sched generalizing st with
  | nil => exact ⟨hA, hB⟩
  | cons b rest ih =>
    cases b with
    | false =>
      exact ih (stepA opA st)
        (stepA_invA opA st hA) (stepA_invB opA opB hconn st hB)
    | true =>
      exact ih (stepB opB st)
        (stepB_invA opA opB hconn st hA) (stepB_invB opB st hB)

theorem run_doneA (opA opB : Op) (sched : List Bool) (st : RunState) :
    min 2 (st.doneA + sched.count false) ≤ (run opA opB sched st).doneA := by
  induction sched generalizing st with
  | nil => simp [run]
  | cons b rest ih =>
    cases b with
    | false =>
      refine le_trans ?_ (ih (stepA opA st))
      unfold stepA
      by_cases h0 : st.doneA = 0
      · rw [if_pos h0]
        simp [h0, List.count_cons]
        omega
      · rw [if_neg h0]
        by_cases h1 : st.doneA = 1
        · rw [if_pos h1]
          simp [h1, List.count_cons]
        · rw [if_neg h1]
          simp [List.count_cons]
          omega
    | true =>
      refine le_trans ?_ (ih (stepB opB st))
      unfold stepB
      by_cases h0 : st.doneB = 0
      · rw [if_pos h0]
        simp [List.count_cons]
      · rw [if_neg h0]
        by_cases h1 : st.doneB = 1
        · rw [if_pos h1]
          simp [List.count_cons]
        · rw [if_neg h1]
          simp [List.count_cons]

theorem run_doneB (opA opB : Op) (sched : List Bool) (st : RunState) :
    min 2 (st.doneB + sched.count true) ≤ (run opA opB sched st).doneB := by
  induction sched generalizing st with
  | nil => simp [run]
  | cons b rest ih =>
    cases b with
    | true =>
      refine le_trans ?_ (ih (stepB opB st))
      unfold stepB
      by_cases h0 : st.doneB = 0
      · rw [if_pos h0]
        simp [h0, List.count_cons]
        omega
      · rw [if_neg h0]
        by_cases h1 : st.doneB = 1
        · rw [if_pos h1]
          simp [h1, List.count_cons]
        · rw [if_neg h1]
          simp [List.count_cons]
          omega
    | false =>
      refine le_trans ?_ (ih (stepA opA st))
      unfold stepA
      by_cases h0 : st.doneA = 0
      · rw [if_pos h0]
        simp [List.count_cons]
      · rw [if_neg h0]
        by_cases h1 : st.doneA = 1
        · rw [if_pos h1]
          simp [List.count_cons]
        · rw [if_neg h1]
          simp [List.count_cons]

end Concurrent

namespace Resource

/-! ### The resource and error model of `queryAsUser2` -/

/-- The spec's two error kinds: the pool cannot supply a connection, or the
database reports an error for a statement. -/
inductive OpError
  | connectionAcquisition
  | queryExecution (e : String)
deriving DecidableEq

/-- The pool's observable state: how many connections are available, and how
many release calls have been made. -/
structure PoolState where
  available : Nat
  releases : Nat
deriving DecidableEq

/-- Modelled from the spec: `acquire()` of the pool boundary collaborator
(the pg pool's own code is outside this repository): it supplies a
connection, decrementing the available count, or the operation fails with
the connection-acquisition error, propagated with no retry. -/
def acquire (p : PoolState) : Except OpError PoolState :=
  if p.available = 0 then .error .connectionAcquisition
  else .ok { p with available := p.available - 1 }

/-- `client.release()`: the connection returns to the pool. -/
def release (p : PoolState) : PoolState :=
  { available := p.available + 1, releases := p.releases + 1 }

/-- `queryAsUser2` of part_000 at the resource level: lease a client from
the pool; inside `try`, run the session-variable statement and then the
caller's statement, each statement's database outcome given by the oracle
`runQuery`; in `finally`, release the client; errors propagate unchanged. -/
def queryAsUser2Op (runQuery : String → Except String (List String))
    (userId queryStr : String) (p : PoolState) :
    Except OpError (List String) × PoolState :=
  match acquire p with
  | .error e => (.error e, p)
  | .ok p1 =>
    let body : Except OpError (List String) :=
      match runQuery ("SET SESSION app.current_user_id to " ++
          Rls.escapeLiteral userId) with
      | .error e => .error (.queryExecution e)
      | .ok _ =>
        match runQuery queryStr with
        | .error e => .error (.queryExecution e)
        | .ok rows => .ok rows
    (body, release p1)

end Resource

namespace Rls

/-! ### The search path the tenant functions set -/

/-- Split a list at top-level commas (a comma inside quotes is text), for
reading the schema list of a `SET search_path` statement. -/
def splitCommaAux : QuoteState → List Char → List Char → List (List Char)
  | _, acc, [] => [acc.reverse]
  | q, acc, c :: cs =>
    if q = .outside ∧ c = ',' then acc.reverse :: splitCommaAux .outside [] cs
    else splitCommaAux (scanStep q c) (c :: acc) cs

/-- Undo identifier quoting: the body of a double-quoted identifier up to
its closing quote, doubled quotes folded; `none` when unterminated or
followed by trailing text. -/
def unqIdentAux : List Char → Option (List Char)
  | [] => none
  | c :: rest =>
    if c = '"' then
      match rest with
      | [] => some []
      | d :: rest2 =>
        if d = '"' then (unqIdentAux rest2).map (fun l => '"' :: l) else none
    else
      (unqIdentAux rest).map (fun l => c :: l)

/-- One element of a `SET search_path` list: a double-quoted identifier, a
single-quoted literal, or a bare name. -/
def parseSchemaItem (l : List Char) : Option String :=
  match trimWs l with
  | '"' :: rest => (unqIdentAux rest).map String.mk
  | '\'' :: rest => (unqAux rest).map String.mk
  | t => if t = [] then none else some (String.mk t)

/-- The text of the search-path statement, up to its schema list. -/
def spHeader : List Char :=
  ("SET search_path TO ").data

/-- The schema names a `SET search_path TO ...` statement resolves through,
in order. -/
def searchPathSchemas (stmt : String) : Option (List String) :=
  if spHeader.isPrefixOf stmt.data then
    (splitCommaAux .outside [] (stmt.data.drop spHeader.length)).mapM parseSchemaItem
  else none

/-- The search-path statement `queryAsTenant` / `queryAsTenantAndUser` of
part_000 interpolate into their batch. -/
def part000SearchPathStmt (tenantId : String) : String :=
  "SET search_path TO " ++ escapeIdentifier ("tenant_" ++ tenantId) ++ ", 'public'"

/-- The search-path statement `queryAsTenant` / `queryAsTenantAndUser` of
main.ts interpolate into their batch (raw interpolation inside quotes). -/
def mainTsSearchPathStmt (tenantId : String) : String :=
  "SET search_path TO 'tenant_" ++ tenantId ++ "', 'public'"

/-- The part_000 tenant batch is the whitespace template around the
search-path statement and the caller's text. -/
theorem part000_tenant_batch_decomp (t q : String) :
    (Part000.queryAsTenantBatch t q).data =
      wsOpen ++ (part000SearchPathStmt t).data ++ wsOpen ++ q.data ++ wsClose := by
  simp [Part000.queryAsTenantBatch, part000SearchPathStmt, String.data_append,
    wsOpen, wsClose, List.append_assoc]

/-- The main.ts tenant batch is the whitespace template around the
search-path statement and the caller's text. -/
theorem mainTs_tenant_batch_decomp (t q : String) :
    (MainTs.queryAsTenantBatch t q).data =
      wsOpen ++ (mainTsSearchPathStmt t).data ++ wsOpen ++ q.data ++ wsClose := by
  simp [MainTs.queryAsTenantBatch, mainTsSearchPathStmt, String.data_append,
    wsOpen, wsClose, List.append_assoc]

theorem unqIdentAux_escape (l : List Char) :
    unqIdentAux (escIdentChars l ++ ['"']) = some l := by
  induction l with
  | nil => rfl
  | cons c t ih =>
    by_cases hq : c = '"'
    · subst hq
      simp [escIdentChars, unqIdentAux, ih]
    · rw [escIdentChars, if_neg hq, List.cons_append]
      have hstep : unqIdentAux (c :: (escIdentChars t ++ ['"'])) =
          (unqIdentAux (escIdentChars t ++ ['"'])).map (fun l => c :: l) := by
        conv_lhs => rw [unqIdentAux.eq_def]
        simp only [if_neg hq]
      rw [hstep, ih]
      rfl

theorem parseSchemaItem_escape (l : List Char) :
    parseSchemaItem (escapeIdentifierData l) = some (String.mk l) := by
  have hshape : escapeIdentifierData l = ('"' :: escIdentChars l) ++ ['"'] := by
    simp [escapeIdentifierData]
  have ht : trimWs (escapeIdentifierData l) = '"' :: (escIdentChars l ++ ['"']) := by
    rw [hshape, trimWs_of_nonWs_ends '"' '"' (escIdentChars l) (by decide) (by decide)]
    simp
  unfold parseSchemaItem
  rw [ht]
  simp [unqIdentAux_escape]

theorem tenant_ne_raw (t : String) : ("tenant_" ++ t) ≠ t := by
  intro h
  have hlen := congrArg (fun s => s.data.length) h
  simp [String.data_append] at hlen
  omega

end Rls

namespace Rls

/-! ## The claims -/

/-- A scope identifier abusing the unescaped interpolation of main.ts: the
quote closes the hand-written literal and the semicolons inject statements. -/
def injectionUserId : String :=
  "1'; SELECT * FROM items; SET SESSION app.current_user_id to '2"

/-- Claim C1: execute returns only rows the access-control policy permits
for the scope, and on the seeded data queryAsUser('1'/'2') returns items
{1,3} / {2,3}. The escaped executor (part_000) satisfies the policy bound
for every scope and caller text; the seeded-data results hold; but main.ts's
unescaped queryAsUser, given a scope string containing a quote and
semicolons, returns rows the policy does not permit for that scope — the
injection evaluated here returns {1,3} although the policy permits no item
for that scope string. -/
theorem claim_c1_rls_scope :
    (∀ (db : DB) (s : Session) (userId queryStr : String) (rows : List String),
      Part000.queryAsUser db s userId queryStr = .ok rows →
      ∀ r ∈ rows, itemsSelectPolicy db userId r = true) ∧
    MainTs.queryAsUser seededDB none injectionUserId "SELECT * FROM items" =
      .ok ["1", "3"] ∧
    itemsSelectPolicy seededDB injectionUserId "1" = false ∧
    MainTs.queryAsUser seededDB none "1" "SELECT * FROM items" = .ok ["1", "3"] ∧
    MainTs.queryAsUser seededDB none "2" "SELECT * FROM items" = .ok ["2", "3"] :=
  ⟨fun db s u q rows h => part000_queryAsUser_policy db s u q rows h,
    by rfl, by rfl, by rfl, by rfl⟩

/-- Claim C2: the preamble embeds the user id as an escaped literal, and a
scope identifier with quotes or semicolons cannot alter statement
boundaries. True of the escaped variant (part_000): its batch always parses
as the session-variable statement followed by the caller's text, and the
escaped literal round-trips to exactly the id. False of main.ts: its raw
interpolation lets the injection id turn the batch into 4 statements where
the escaped batch has 2. -/
theorem claim_c2_escaping :
    (∀ (userId queryStr : String),
      splitStatements (Part000.queryAsUserBatch userId queryStr) =
        ((wsOpen ++ setHeader) ++ escapeLiteralData userId.data) ::
          splitChars (wsOpen ++ queryStr.data ++ wsClose)) ∧
    (∀ (userId : String),
      unquoteLiteral (escapeLiteralData userId.data) = some userId.data) ∧
    (splitStatements (Part000.queryAsUserBatch injectionUserId
      "SELECT * FROM items")).length = 2 ∧
    (splitStatements (MainTs.queryAsUserBatch injectionUserId
      "SELECT * FROM items")).length = 4 :=
  ⟨part000_batch_split, fun u => unquoteLiteral_escape u.data, by rfl, by rfl⟩

/-- Claim C3: concurrent operations with different scopes on a shared pool
never observe each other's session context. Each operation holds its own
exclusively leased connection; for every interleaving of their steps in
which both operations complete, each caller statement reads exactly its own
operation's scope, whatever stale contexts the pool's connections started
with. -/
theorem claim_c3_session_isolation (opA opB : Concurrent.Op) (sched : List Bool)
    (σ0 : Concurrent.Sessions) (hconn : opA.conn ≠ opB.conn)
    (hA : 2 ≤ sched.count false) (hB : 2 ≤ sched.count true) :
    (Concurrent.run opA opB sched (Concurrent.initState σ0)).resA =
      some (some opA.scope) ∧
    (Concurrent.run opA opB sched (Concurrent.initState σ0)).resB =
      some (some opB.scope) := by
  have hinv := Concurrent.run_invariants opA opB hconn sched (Concurrent.initState σ0)
    (Or.inl ⟨rfl, rfl⟩) (Or.inl ⟨rfl, rfl⟩)
  have hdA := Concurrent.run_doneA opA opB sched (Concurrent.initState σ0)
  have hdB := Concurrent.run_doneB opA opB sched (Concurrent.initState σ0)
  have hminA : min 2 ((Concurrent.initState σ0).doneA + sched.count false) = 2 :=
    Nat.min_eq_left (by simp [Concurrent.initState]; omega)
  have hminB : min 2 ((Concurrent.initState σ0).doneB + sched.count true) = 2 :=
    Nat.min_eq_left (by simp [Concurrent.initState]; omega)
  rw [hminA] at hdA
  rw [hminB] at hdB
  constructor
  · rcases hinv.1 with ⟨h0, _⟩ | ⟨h1, _, _⟩ | ⟨_, hr⟩
    · omega
    · omega
    · exact hr
  · rcases hinv.2 with ⟨h0, _⟩ | ⟨h1, _, _⟩ | ⟨_, hr⟩
    · omega
    · omega
    · exact hr

/-- Witness for C3: a concrete alternating schedule of the two operations on
connections 0 and 1, started with empty contexts. -/
theorem claim_c3_session_isolation_witness :
    (Concurrent.run ⟨"1", 0⟩ ⟨"2", 1⟩ [false, true, false, true]
      (Concurrent.initState fun _ => none)).resA = some (some "1") ∧
    (Concurrent.run ⟨"1", 0⟩ ⟨"2", 1⟩ [false, true, false, true]
      (Concurrent.initState fun _ => none)).resB = some (some "2") :=
  claim_c3_session_isolation ⟨"1", 0⟩ ⟨"2", 1⟩ [false, true, false, true]
    (fun _ => none) (by decide) (by decide) (by decide)

/-- Claim C4: the returned value is the last statement's result set, at
position 1 (queryAsUser, queryAsTenant) or 2 (queryAsTenantAndUser). True
for queryAsUser: its batch is [preamble, caller statement] and position 1 is
the caller's (last) result. False for queryAsTenant: the template has no
semicolon after the search-path statement, so the whole batch parses as one
(malformed) statement — there is no result at position 1 and the operation
raises instead of returning the caller's rows. -/
theorem claim_c4_result_position :
    runBatch seededDB none
        (splitStatements (MainTs.queryAsUserBatch "1" "SELECT * FROM items")) =
      .ok (some "1", [[], ["1", "3"]]) ∧
    MainTs.queryAsUser seededDB none "1" "SELECT * FROM items" = .ok ["1", "3"] ∧
    (splitStatements (MainTs.queryAsTenantBatch "1" "SELECT * FROM items")).length
      = 1 ∧
    (∃ e, MainTs.queryAsTenant seededDB none "1" "SELECT * FROM items" = .error e) :=
  ⟨by rfl, by rfl, by rfl, ⟨_, by rfl⟩⟩

/-- Claim C5: a connection is released exactly once on every exit path.
When the pool supplies a client, queryAsUser2's finally releases it exactly
once — whether both statements succeed or either raises — and the available
count returns to its baseline; when acquisition fails, nothing was leased
and the pool is unchanged. -/
theorem claim_c5_connection_release
    (runQuery : String → Except String (List String)) (userId queryStr : String)
    (p : Resource.PoolState) :
    (0 < p.available →
      (Resource.queryAsUser2Op runQuery userId queryStr p).2.available =
          p.available ∧
        (Resource.queryAsUser2Op runQuery userId queryStr p).2.releases =
          p.releases + 1) ∧
    (p.available = 0 →
      (Resource.queryAsUser2Op runQuery userId queryStr p).2 = p) := by
  unfold Resource.queryAsUser2Op Resource.acquire
  by_cases h0 : p.available = 0
  · rw [if_pos h0]
    exact ⟨fun hlt => absurd h0 (by omega), fun _ => rfl⟩
  · rw [if_neg h0]
    refine ⟨fun _ => ?_, fun he => absurd he h0⟩
    cases runQuery ("SET SESSION app.current_user_id to " ++ escapeLiteral userId) with
    | error e => simp [Resource.release]; omega
    | ok r =>
      cases runQuery queryStr with
      | error e => simp [Resource.release]; omega
      | ok rows => simp [Resource.release]; omega

/-- Claim C6: execute fails with the connection-acquisition error when the
pool cannot supply a connection, and with the query-execution error carrying
the database's error unchanged when the preamble or the caller's statement
raises; otherwise it returns the full row set. No retry, no recovery, no
partial result; the batched queryAsUser likewise propagates a batch error
verbatim. -/
theorem claim_c6_error_propagation :
    (∀ (runQuery : String → Except String (List String)) (userId queryStr : String)
        (p : Resource.PoolState),
      (p.available = 0 →
        Resource.queryAsUser2Op runQuery userId queryStr p =
          (.error .connectionAcquisition, p)) ∧
      (∀ e, 0 < p.available →
        runQuery ("SET SESSION app.current_user_id to " ++ escapeLiteral userId) =
          .error e →
        (Resource.queryAsUser2Op runQuery userId queryStr p).1 =
          .error (.queryExecution e)) ∧
      (∀ r0 e, 0 < p.available →
        runQuery ("SET SESSION app.current_user_id to " ++ escapeLiteral userId) =
          .ok r0 →
        runQuery queryStr = .error e →
        (Resource.queryAsUser2Op runQuery userId queryStr p).1 =
          .error (.queryExecution e)) ∧
      (∀ r0 rows, 0 < p.available →
        runQuery ("SET SESSION app.current_user_id to " ++ escapeLiteral userId) =
          .ok r0 →
        runQuery queryStr = .ok rows →
        (Resource.queryAsUser2Op runQuery userId queryStr p).1 = .ok rows)) ∧
    (∀ (db : DB) (s : Session) (userId queryStr : String) (e : String),
      runBatch db s (splitStatements (MainTs.queryAsUserBatch userId queryStr)) =
        .error e →
      MainTs.queryAsUser db s userId queryStr = .error e) := by
  constructor
  · intro runQuery userId queryStr p
    refine ⟨fun h0 => ?_, fun e hlt he => ?_, fun r0 e hlt hok he => ?_,
      fun r0 rows hlt hok1 hok2 => ?_⟩
    · unfold Resource.queryAsUser2Op Resource.acquire
      rw [if_pos h0]
    · unfold Resource.queryAsUser2Op Resource.acquire
      rw [if_neg (by omega)]
      simp [he]
    · unfold Resource.queryAsUser2Op Resource.acquire
      rw [if_neg (by omega)]
      simp [hok, he]
    · unfold Resource.queryAsUser2Op Resource.acquire
      rw [if_neg (by omega)]
      simp [hok1, hok2]
  · intro db s userId queryStr e h
    unfold MainTs.queryAsUser
    rw [h]

/-- Claim C7: one session-context statement per scope dimension, executed
with the caller's statement as distinct statements of a single batch. False
for queryAsTenantAndUser: its template has no semicolon after the
search-path statement, so the two preamble statements merge into one
(malformed) statement and the batch has 2 statements, not 3 — shown by the
batch's first parsed statement containing both SET texts. For queryAsUser
the preamble and the caller's statement are the batch's 2 distinct
statements. -/
theorem claim_c7_preamble_batch :
    (splitStatements (Part000.queryAsTenantAndUserBatch "1" "1"
      "SELECT * FROM items")).length = 2 ∧
    (splitStatements (Part000.queryAsTenantAndUserBatch "1" "1"
        "SELECT * FROM items")).get? 0 =
      some ("\n    SET search_path TO \"tenant_1\", 'public'\n    SET SESSION app.current_user_id to '1'").data ∧
    (splitStatements (Part000.queryAsUserBatch "1" "SELECT * FROM items")).length
      = 2 :=
  ⟨by rfl, by rfl, by rfl⟩

/-- Claim C8: for any single-statement caller text (no statement separator
outside quotes), the batched queryAsUser (one batch, result taken at
position 1) and the sequential queryAsUser2 (dedicated connection, two
separate queries) return the same rows — whatever session state either
connection carried from earlier use. -/
theorem claim_c8_query_equivalence (db : DB) (s1 s2 : Session)
    (userId queryStr : String)
    (hsingle : splitFree .outside queryStr.data = true) :
    Part000.queryAsUser db s1 userId queryStr =
      Part000.queryAsUser2 db s2 userId queryStr := by
  unfold Part000.queryAsUser Part000.queryAsUser2
  rw [part000_batch_split, part000_tail_single queryStr hsingle, seq_set_data]
  cases hq : evalStmt db (some userId) queryStr.data with
  | error e =>
    simp only [runBatch, evalStmt_set_chunk, evalStmt_set, evalStmt_tail, hq]
  | ok p =>
    obtain ⟨sx, rows⟩ := p
    simp only [runBatch, evalStmt_set_chunk, evalStmt_set, evalStmt_tail, hq,
      List.get?]

/-- Witness for C8: both implementations on the seeded data, with the
dedicated connection carrying a stale session value. -/
theorem claim_c8_query_equivalence_witness :
    Part000.queryAsUser seededDB none "1" "SELECT * FROM items" =
      Part000.queryAsUser2 seededDB (some "42") "1" "SELECT * FROM items" :=
  claim_c8_query_equivalence seededDB none (some "42") "1" "SELECT * FROM items"
    (by decide)

/-- Claim C9: the tenant functions set search_path to the tenant_-prefixed
schema followed by public, never the raw tenant id. The escaped variant
does, for every tenant id: the escaped identifier names exactly
tenant_<id>, which never equals the raw id, and its statement resolves to
[tenant_<id>, public]. main.ts's unescaped variant matches only for benign
ids: for a tenant id containing quotes its search path becomes
[tenant_x, y, public], using the raw suffix directly as a schema name. -/
theorem claim_c9_tenant_schema :
    (∀ tenantId : String,
      parseSchemaItem (escapeIdentifierData ("tenant_" ++ tenantId).data) =
        some ("tenant_" ++ tenantId)) ∧
    (∀ tenantId : String, ("tenant_" ++ tenantId) ≠ tenantId) ∧
    searchPathSchemas (part000SearchPathStmt "1") = some ["tenant_1", "public"] ∧
    searchPathSchemas (mainTsSearchPathStmt "1") = some ["tenant_1", "public"] ∧
    searchPathSchemas (part000SearchPathStmt "x', 'y") =
      some ["tenant_x', 'y", "public"] ∧
    searchPathSchemas (mainTsSearchPathStmt "x', 'y") =
      some ["tenant_x", "y", "public"] :=
  ⟨fun t => by rw [parseSchemaItem_escape, string_mk_data],
    tenant_ne_raw, by rfl, by rfl, by rfl, by rfl⟩

/-- Claim C10: the rows are taken at the fixed position 1, not at the actual
last result set. With the two-statement caller text the batch parses into 3
statements; running a caller text whose first statement is a SET returns
that SET's empty row set while the later SELECT's rows (present in the
batch's results) are silently discarded. -/
theorem claim_c10_fixed_position :
    splitStatements (MainTs.queryAsUserBatch "1" "SELECT 1; SELECT 2") =
      [("\n    SET SESSION app.current_user_id to '1'").data,
        ("\n    SELECT 1").data, (" SELECT 2\n  ").data] ∧
    runBatch seededDB none (splitStatements (MainTs.queryAsUserBatch "1"
        "SET SESSION app.current_user_id to '2'; SELECT * FROM items")) =
      .ok (some "2", [[], [], ["2", "3"]]) ∧
    MainTs.queryAsUser seededDB none "1"
        "SET SESSION app.current_user_id to '2'; SELECT * FROM items" = .ok [] :=
  ⟨by rfl, by rfl, by rfl⟩

end Rls
